import Mathlib

/-!
Shallow embedding of the schema-annotation merge loop of
`src/grafast/grafast/src/makeGrafastSchema.ts` (function `makeGrafastSchema`,
lines 114-303).  The base type graph produced by the external `buildASTSchema`
call is an input here (structures below); the embedding models the loop that
walks the `plans` configuration map and writes behavior metadata onto the
graph, together with its `console.warn` / `console.error` diagnostics and the
exceptions it throws.
-/

namespace Grafast

/-- A dynamic JavaScript value, as the `plans` configuration map may contain.
Functions are opaque and identified by a numeric tag; objects are ordered
key/value lists (JS object literals have unique keys). -/
inductive Val where
  | vfn (id : Nat)
  | vstr (s : String)
  | vnum (n : Int)
  | vbool (b : Bool)
  | vnull
  | vundefined
  | vobj (entries : List (String × Val))

/-- `typeof v === "function"`. -/
def isFunc : Val → Bool
  | .vfn _ => true
  | _ => false

/-- `typeof v === "object" && v !== null`, i.e. a real (non-null) object. -/
def isObjVal : Val → Bool
  | .vobj _ => true
  | _ => false

/-- JavaScript truthiness (no floats in this model, so no NaN case). -/
def truthy : Val → Bool
  | .vfn _ => true
  | .vstr s => !(s == "")
  | .vnum n => !(n == 0)
  | .vbool b => b
  | .vnull => false
  | .vundefined => false
  | .vobj _ => true

/-- Own-property lookup on an entry list; a missing key reads as `undefined`. -/
def objGet (entries : List (String × Val)) (k : String) : Val :=
  match entries.find? (fun e => e.1 == k) with
  | some e => e.2
  | none => .vundefined

/-- The JS `in` operator: is the key present (even if its value is
`undefined`)? -/
def hasKey (entries : List (String × Val)) (k : String) : Bool :=
  entries.any (fun e => e.1 == k)

/-- Property assignment `o[k] = v`: overwrite in place if the key exists,
else append. -/
def setKey (es : List (String × Val)) (k : String) (v : Val) : List (String × Val) :=
  match es with
  | [] => [(k, v)]
  | e :: rest => if e.1 == k then (k, v) :: rest else e :: setKey rest k v

/-- The index/character own-properties of a string, as `Object.assign`
enumerates them. -/
def stringEntries (s : String) : List (String × Val) :=
  s.toList.enum.map (fun p => (toString p.1, Val.vstr (String.mk [p.2])))

/-- `Object.assign(tgt, src)`: copies the source's own enumerable properties;
strings contribute their indexed characters, other primitives (and
`null`/`undefined`) contribute nothing. -/
def assignFrom (tgt : List (String × Val)) (src : Val) : List (String × Val) :=
  match src with
  | .vobj es => es.foldl (fun a e => setKey a e.1 e.2) tgt
  | .vstr s => (stringEntries s).foldl (fun a e => setKey a e.1 e.2) tgt
  | _ => tgt

/-- `fieldName.startsWith("__")`. -/
def startsWithDunder (s : String) : Bool :=
  match s.toList with
  | c1 :: c2 :: _ => c1 == '_' && c2 == '_'
  | _ => false

/-- Property access `v.k` for the fixed alphabetic keys the merger reads
(`resolve`, `subscribe`, `plan`, `subscribePlan`, `args`, ...): none of these
is `length` or a numeric index, so primitive receivers always yield
`undefined`.  `null`/`undefined` receivers (which raise a TypeError in JS)
are handled explicitly by the caller. -/
def getProp (v : Val) (k : String) : Val :=
  match v with
  | .vobj entries => objGet entries k
  | _ => .vundefined

/-- An extensions namespace payload (the object stored at
`extensions.grafast`). -/
abbrev Ext := List (String × Val)

/-- A GraphQL argument: name plus its `extensions.grafast` slot (absent on a
freshly built schema). -/
structure Arg where
  name : String
  grafast : Option Ext

/-- An object-type field: name, arguments, the native `resolve`/`subscribe`
hooks and the `extensions.grafast` slot. -/
structure Field where
  name : String
  args : List Arg
  resolve : Option Val
  subscribe : Option Val
  grafast : Option Ext

/-- A GraphQL object type: fields plus the type-level `extensions.grafast`
slot (which `__assertStep` writes to). -/
structure ObjectType where
  name : String
  fields : List Field
  grafast : Option Ext

/-- An input-object field: name plus its `extensions.grafast` slot. -/
structure InputField where
  name : String
  grafast : Option Ext

/-- A GraphQL input object type. -/
structure InputObjectType where
  name : String
  fields : List InputField

/-- An interface or union type: carries the mutable `resolveType` hook. -/
structure IUType where
  name : String
  resolveType : Option Val

/-- A GraphQL scalar type: the three native hooks plus the type-level
`extensions.grafast` slot. -/
structure ScalarType where
  name : String
  serialize : Option Val
  parseValue : Option Val
  parseLiteral : Option Val
  grafast : Option Ext

/-- An enum value: name, internal representation (`value`), and its
`extensions.grafast` slot. -/
structure EnumValue where
  name : String
  value : Val
  grafast : Option Ext

/-- A GraphQL enum type. -/
structure EnumType where
  name : String
  values : List EnumValue

/-- A named type of the graph; `unknown` stands for a node of a kind outside
the five the classifier recognizes (the `never` fallback branch). -/
inductive TypeNode where
  | object (o : ObjectType)
  | inputObject (o : InputObjectType)
  | iface (o : IUType)
  | scalar (o : ScalarType)
  | enum (o : EnumType)
  | unknown (name : String)

/-- The name of a type node (`schema.getType` keys on it). -/
def TypeNode.name : TypeNode → String
  | .object o => o.name
  | .inputObject o => o.name
  | .iface o => o.name
  | .scalar o => o.name
  | .enum o => o.name
  | .unknown n => n

/-- Whether the node's kind falls outside the five recognized kinds. -/
def TypeNode.isUnknown : TypeNode → Bool
  | .unknown _ => true
  | _ => false

/-- Warning of line 129: configured type not present in the schema. -/
def typeWarnMsg (typeName : String) : String :=
  "'plans' specified configuration for type '" ++ typeName ++
    "', but that type was not present in the schema"

/-- Warning of line 155: configured object field not present in the type. -/
def fieldWarnMsg (typeName fieldName : String) : String :=
  "'plans' specified configuration for object type '" ++ typeName ++
    "' field '" ++ fieldName ++ "', but that field was not present in the type"

/-- Warning of line 188: configured arg not present in the field. -/
def argWarnMsg (typeName fieldName argName : String) : String :=
  "'plans' specified configuration for object type '" ++ typeName ++
    "' field '" ++ fieldName ++ "' arg '" ++ argName ++
    "', but that arg was not present in the type"

/-- Warning of line 220: configured input-object field not present. -/
def inputWarnMsg (typeName fieldName : String) : String :=
  "'plans' specified configuration for input object type '" ++ typeName ++
    "' field '" ++ fieldName ++ "', but that field was not present in the type"

/-- Warning of line 272: configured enum value not present in the type. -/
def enumWarnMsg (typeName valueName : String) : String :=
  "'plans' specified configuration for enum type '" ++ typeName ++
    "' value '" ++ valueName ++ "', but that value was not present in the type"

/-- Error of line 148: a `__`-prefixed object field key other than
`__assertStep`. -/
def dunderErrMsg (fieldName : String) : String :=
  "Unsupported field name '" ++ fieldName ++ "'; perhaps you meant '__assertStep'?"

/-- Error of line 195: a bare function supplied as an argument spec. -/
def argFnMsg (typeName fieldName argName : String) : String :=
  "Invalid configuration for plans." ++ typeName ++ "." ++ fieldName ++
    ".args." ++ argName ++
    " - saw a function, but expected an object with 'inputPlan' (optional) and 'applyPlan' (optional) plans"

/-- Error of line 226: a bare function supplied as an input-object field
spec. -/
def inputFnMsg (typeName fieldName : String) : String :=
  "Expected input object type '" ++ typeName ++ "' field '" ++ fieldName ++
    "' to be an object, but found a function. We don't know if this should be the 'inputPlan' or 'applyPlan' - please supply an object."

/-- Errors of lines 136/210/239/247/264: non-object spec for a type. -/
def invalidConfigMsg (kindLabel typeName : String) : String :=
  "Invalid " ++ kindLabel ++ " config for '" ++ typeName ++ "'"

/-- Message of line 299 (the `never` fallback logs the type via
`console.error`; a GraphQL named type stringifies to its name). -/
def unhandledTypeMsg (n : String) : String :=
  "Unhandled type " ++ n

/-- The TypeError raised when line 171 reads `.resolve` off a `null` or
`undefined` field spec. -/
def typeErrorMsg (what : String) : String :=
  "TypeError: Cannot read properties of " ++ what ++ " (reading 'resolve')"

/-- Result of a processing step that mutates part of the graph: the (possibly
partially) updated value, the warnings logged, and the exception message when
the step threw.  On a throw, `val` holds the mutations made before the throw,
matching the in-place mutation of the source. -/
structure StepRes (α : Type) where
  val : α
  warnings : List String
  fatal : Option String

/-- Does the field map of an input object type contain this name? -/
def hasInputField (fields : List InputField) (n : String) : Bool :=
  fields.any (fun f => f.name == n)

/-- Set the `extensions.grafast` slot of the named input field (names are
unique in a GraphQL type, so updating the first match models in-place object
mutation). -/
def setInputFieldExt (fields : List InputField) (n : String) (e : Ext) : List InputField :=
  match fields with
  | [] => []
  | f :: rest =>
    if f.name == n then { f with grafast := some e } :: rest
    else f :: setInputFieldExt rest n e

/-- `field.args.find((arg) => arg.name === argName)` succeeds? -/
def hasArg (args : List Arg) (n : String) : Bool :=
  args.any (fun a => a.name == n)

/-- Set the `extensions.grafast` slot of the named argument. -/
def setArgExt (args : List Arg) (n : String) (e : Ext) : List Arg :=
  match args with
  | [] => []
  | a :: rest =>
    if a.name == n then { a with grafast := some e } :: rest
    else a :: setArgExt rest n e

/-- Replace the named field of an object type with an updated field. -/
def setField (fields : List Field) (n : String) (fd : Field) : List Field :=
  match fields with
  | [] => []
  | f :: rest => if f.name == n then fd :: rest else f :: setField rest n fd

/-- `enumValues.find((val) => val.name === enumValueName)` succeeds? -/
def hasEnumValue (vals : List EnumValue) (n : String) : Bool :=
  vals.any (fun v => v.name == n)

/-- Update the named enum value in place. -/
def updateEnumValue (vals : List EnumValue) (n : String) (g : EnumValue → EnumValue) :
    List EnumValue :=
  match vals with
  | [] => []
  | v :: rest => if v.name == n then g v :: rest else v :: updateEnumValue rest n g

/-- Replace the named type node of the schema. -/
def updateType (schema : List TypeNode) (n : String) (t : TypeNode) : List TypeNode :=
  match schema with
  | [] => []
  | x :: rest => if x.name == n then t :: rest else x :: updateType rest n t

/-- Lines 184-205: the loop over `fieldSpec.args` entries.  A missing arg
warns and is skipped; a bare function throws with the full path; anything
else is copied by `Object.assign` into a freshly allocated extension slot. -/
def processArgEntries (typeName fieldName : String) (args : List Arg) :
    List (String × Val) → StepRes (List Arg)
  | [] => { val := args, warnings := [], fatal := none }
  | (argName, argSpec) :: rest =>
    if hasArg args argName then
      if isFunc argSpec then
        { val := args, warnings := [], fatal := some (argFnMsg typeName fieldName argName) }
      else
        processArgEntries typeName fieldName
          (setArgExt args argName (assignFrom [] argSpec)) rest
    else
      let r := processArgEntries typeName fieldName args rest
      { r with warnings := argWarnMsg typeName fieldName argName :: r.warnings }

/-- Lines 161-206: the handling of one object-type field spec once the field
has been found.  A bare function becomes the `plan` of a fresh `grafast`
extension object; otherwise a fresh extension object is installed first, the
function-typed keys among `resolve`/`subscribe`/`plan`/`subscribePlan` are
applied, and an object-valued `args` key is walked.  A `null`/`undefined`
spec raises a TypeError on the first property read, after the fresh (empty)
extension object was already installed. -/
def applyFieldSpec (typeName fieldName : String) (field : Field) (fieldSpec : Val) :
    StepRes Field :=
  if isFunc fieldSpec then
    { val := { field with grafast := some [("plan", fieldSpec)] }
      warnings := [], fatal := none }
  else
    match fieldSpec with
    | .vnull =>
      { val := { field with grafast := some [] }, warnings := []
        fatal := some (typeErrorMsg "null") }
    | .vundefined =>
      { val := { field with grafast := some [] }, warnings := []
        fatal := some (typeErrorMsg "undefined") }
    | _ =>
      let rv := getProp fieldSpec "resolve"
      let sv := getProp fieldSpec "subscribe"
      let pv := getProp fieldSpec "plan"
      let spv := getProp fieldSpec "subscribePlan"
      let ext := (if isFunc pv then [("plan", pv)] else [])
        ++ (if isFunc spv then [("subscribePlan", spv)] else [])
      let f1 : Field := { field with
        resolve := if isFunc rv then some rv else field.resolve
        subscribe := if isFunc sv then some sv else field.subscribe
        grafast := some ext }
      match getProp fieldSpec "args" with
      | .vobj argEntries =>
        let r := processArgEntries typeName fieldName f1.args argEntries
        { val := { f1 with args := r.val }, warnings := r.warnings, fatal := r.fatal }
      | _ => { val := f1, warnings := [], fatal := none }

/-- Lines 141-207: the loop over an object type's spec entries.
`__assertStep` replaces the type-level extension slot; any other
`__`-prefixed key throws; a missing field warns and is skipped; a found
field is processed by `applyFieldSpec`. -/
def processObjectEntries (typeName : String) (t : ObjectType) :
    List (String × Val) → StepRes ObjectType
  | [] => { val := t, warnings := [], fatal := none }
  | (fieldName, fieldSpec) :: rest =>
    if fieldName == "__assertStep" then
      processObjectEntries typeName
        { t with grafast := some [("assertStep", fieldSpec)] } rest
    else if startsWithDunder fieldName then
      { val := t, warnings := [], fatal := some (dunderErrMsg fieldName) }
    else
      match t.fields.find? (fun f => f.name == fieldName) with
      | none =>
        let r := processObjectEntries typeName t rest
        { r with warnings := fieldWarnMsg typeName fieldName :: r.warnings }
      | some field =>
        let r := applyFieldSpec typeName fieldName field fieldSpec
        let t2 : ObjectType := { t with fields := setField t.fields fieldName r.val }
        match r.fatal with
        | some e => { val := t2, warnings := r.warnings, fatal := some e }
        | none =>
          let r2 := processObjectEntries typeName t2 rest
          { val := r2.val, warnings := r.warnings ++ r2.warnings, fatal := r2.fatal }

/-- Lines 217-236: the loop over an input object type's spec entries.  A
missing field warns and is skipped; a bare function throws; anything else is
copied by `Object.assign` into a freshly allocated extension slot. -/
def processInputEntries (typeName : String) (fields : List InputField) :
    List (String × Val) → StepRes (List InputField)
  | [] => { val := fields, warnings := [], fatal := none }
  | (fieldName, fieldSpec) :: rest =>
    if hasInputField fields fieldName then
      if isFunc fieldSpec then
        { val := fields, warnings := [], fatal := some (inputFnMsg typeName fieldName) }
      else
        processInputEntries typeName
          (setInputFieldExt fields fieldName (assignFrom [] fieldSpec)) rest
    else
      let r := processInputEntries typeName fields rest
      { r with warnings := inputWarnMsg typeName fieldName :: r.warnings }

/-- Lines 242-244: an interface/union spec installs `__resolveType` when
truthy. -/
def applyIfaceSpec (t : IUType) (entries : List (String × Val)) : IUType :=
  let rt := objGet entries "__resolveType"
  if truthy rt then { t with resolveType := some rt } else t

/-- Lines 250-261: a scalar spec replaces each of the three native hooks when
the corresponding key is a function, and installs a fresh `grafast` extension
holding `plan` when that key is a function. -/
def applyScalarSpec (s : ScalarType) (entries : List (String × Val)) : ScalarType :=
  let s1 := if isFunc (objGet entries "serialize")
    then { s with serialize := some (objGet entries "serialize") } else s
  let s2 := if isFunc (objGet entries "parseValue")
    then { s1 with parseValue := some (objGet entries "parseValue") } else s1
  let s3 := if isFunc (objGet entries "parseLiteral")
    then { s2 with parseLiteral := some (objGet entries "parseLiteral") } else s2
  if isFunc (objGet entries "plan")
    then { s3 with grafast := some [("plan", objGet entries "plan")] } else s3

/-- Lines 277-295: the handling of one enum-value spec once the value has
been found.  A bare function becomes `applyPlan` of a fresh extension object;
a (non-null) object installs a truthy `applyPlan` and overwrites the internal
`value` exactly when the `value` key is present; anything else (including
`null`/`undefined`) overwrites the internal value directly. -/
def applyEnumValueSpec (ev : EnumValue) (spec : Val) : EnumValue :=
  if isFunc spec then
    { ev with grafast := some [("applyPlan", spec)] }
  else
    match spec with
    | .vobj entries =>
      let ap := objGet entries "applyPlan"
      let ev1 := if truthy ap then { ev with grafast := some [("applyPlan", ap)] } else ev
      if hasKey entries "value" then { ev1 with value := objGet entries "value" } else ev1
    | _ => { ev with value := spec }

/-- Lines 266-296: the loop over an enum type's spec entries.  A missing
value warns and is skipped; a found value is processed by
`applyEnumValueSpec`.  No entry can throw. -/
def processEnumEntries (typeName : String) (vals : List EnumValue) :
    List (String × Val) → List EnumValue × List String
  | [] => (vals, [])
  | (valueName, valueSpec) :: rest =>
    if hasEnumValue vals valueName then
      processEnumEntries typeName
        (updateEnumValue vals valueName (fun ev => applyEnumValueSpec ev valueSpec)) rest
    else
      let r := processEnumEntries typeName vals rest
      (r.1, enumWarnMsg typeName valueName :: r.2)

/-- The overall outcome of the merge: the (possibly partially mutated)
graph, the `console.warn` and `console.error` messages in order, and the
exception message when the merge threw. -/
structure MergeResult where
  schema : List TypeNode
  warnings : List String
  errors : List String
  fatal : Option String

/-- Lines 126-301: processing of a single `(typeName, spec)` entry of the
`plans` map.  A name absent from the schema warns and is skipped; each of the
five kinds insists the spec is a non-null object (distinct message per kind)
and dispatches to its policy; a node of an unrecognized kind is logged via
`console.error` and skipped. -/
def processEntry (schema : List TypeNode) (typeName : String) (spec : Val) : MergeResult :=
  match schema.find? (fun t => t.name == typeName) with
  | none =>
    { schema := schema, warnings := [typeWarnMsg typeName], errors := [], fatal := none }
  | some t =>
    match t with
    | .object o =>
      match spec with
      | .vobj entries =>
        let r := processObjectEntries typeName o entries
        { schema := updateType schema typeName (.object r.val)
          warnings := r.warnings, errors := [], fatal := r.fatal }
      | _ =>
        { schema := schema, warnings := [], errors := []
          fatal := some (invalidConfigMsg "object" typeName) }
    | .inputObject o =>
      match spec with
      | .vobj entries =>
        let r := processInputEntries typeName o.fields entries
        { schema := updateType schema typeName (.inputObject { o with fields := r.val })
          warnings := r.warnings, errors := [], fatal := r.fatal }
      | _ =>
        { schema := schema, warnings := [], errors := []
          fatal := some (invalidConfigMsg "input object" typeName) }
    | .iface o =>
      match spec with
      | .vobj entries =>
        { schema := updateType schema typeName (.iface (applyIfaceSpec o entries))
          warnings := [], errors := [], fatal := none }
      | _ =>
        { schema := schema, warnings := [], errors := []
          fatal := some (invalidConfigMsg "interface/union" typeName) }
    | .scalar o =>
      match spec with
      | .vobj entries =>
        { schema := updateType schema typeName (.scalar (applyScalarSpec o entries))
          warnings := [], errors := [], fatal := none }
      | _ =>
        { schema := schema, warnings := [], errors := []
          fatal := some (invalidConfigMsg "scalar" typeName) }
    | .enum o =>
      match spec with
      | .vobj entries =>
        let r := processEnumEntries typeName o.values entries
        { schema := updateType schema typeName (.enum { o with values := r.1 })
          warnings := r.2, errors := [], fatal := none }
      | _ =>
        { schema := schema, warnings := [], errors := []
          fatal := some (invalidConfigMsg "enum" typeName) }
    | .unknown n =>
      { schema := schema, warnings := [], errors := [unhandledTypeMsg n], fatal := none }

/-- Lines 126-302: the merge loop over the `plans` map, in insertion order.
A throw aborts the loop immediately, leaving the mutations already made in
place. -/
def mergePlans (schema : List TypeNode) : List (String × Val) → MergeResult
  | [] => { schema := schema, warnings := [], errors := [], fatal := none }
  | (typeName, spec) :: rest =>
    let r := processEntry schema typeName spec
    match r.fatal with
    | some _ => r
    | none =>
      let r2 := mergePlans r.schema rest
      { schema := r2.schema, warnings := r.warnings ++ r2.warnings
        errors := r.errors ++ r2.errors, fatal := r2.fatal }

/-- A concrete schema: one input object `I` with fields `a` and `b`. -/
def c2CexSchema : List TypeNode :=
  [.inputObject { name := "I", fields :=
    [{ name := "a", grafast := none }, { name := "b", grafast := none }] }]

/-- A concrete plans map configuring `I.a` with an object spec and `I.b`
with a bare function. -/
def c2CexPlans : List (String × Val) :=
  [("I", .vobj [("a", .vobj [("x", .vnum 1)]), ("b", .vfn 0)])]

/-- A concrete schema: one node of an unrecognized kind, then an enum. -/
def c3CexSchema : List TypeNode :=
  [.unknown "X",
   .enum { name := "E", values := [{ name := "A", value := .vstr "A", grafast := none }] }]

/-- A concrete plans map configuring the unrecognized node first, then the
enum. -/
def c3CexPlans : List (String × Val) :=
  [("X", .vobj []), ("E", .vobj [("A", .vnum 7)])]

/-- A concrete schema: one enum type `E` with a single value `A`. -/
def c4CexSchema : List TypeNode :=
  [.enum { name := "E", values := [{ name := "A", value := .vstr "A", grafast := none }] }]

/-- A concrete plans map giving the enum a `__`-prefixed key. -/
def c4CexPlans : List (String × Val) :=
  [("E", .vobj [("__bogus", .vfn 0)])]

/-- A concrete schema: one object type `Query` with a single field `hello`. -/
def c5CexSchema : List TypeNode :=
  [.object
    { name := "Query"
      fields := [{ name := "hello", args := [], resolve := none, subscribe := none,
                   grafast := none }]
      grafast := none }]

/-- A concrete enum-style plans map (value-name to bare string) supplied for
the object type `Query`. -/
def c5CexPlans : List (String × Val) :=
  [("Query", .vobj [("FOO", .vstr "foo")])]

/-- A concrete scalar type with no hooks installed. -/
def c10Scalar : ScalarType :=
  { name := "S", serialize := none, parseValue := none, parseLiteral := none
    grafast := none }

/-- A concrete scalar spec whose recognized keys all hold non-functions. -/
def c10ScalarSpec : List (String × Val) :=
  [("serialize", .vnum 1), ("parseValue", .vstr "x"), ("parseLiteral", .vnull),
   ("plan", .vbool true)]

/-- A concrete schema holding only the scalar above. -/
def c10Schema : List TypeNode := [.scalar c10Scalar]

/-- A concrete object-type field with no hooks installed. -/
def c10Field : Field :=
  { name := "h", args := [], resolve := none, subscribe := none, grafast := none }

/-- A concrete structured field spec whose recognized keys all hold
non-functions (and whose `args` is not an object). -/
def c10FieldSpec : List (String × Val) :=
  [("resolve", .vnum 2), ("subscribe", .vnull), ("plan", .vstr "p"),
   ("subscribePlan", .vbool false), ("args", .vnum 3)]

/-- A function-valued property that is read via `objGet` is a present key
(a missing key reads as `undefined`, which is not a function). -/
theorem hasKey_of_func (entries : List (String × Val)) (k : String)
    (h : isFunc (objGet entries k) = true) : hasKey entries k = true := by
  unfold objGet at h
  cases hf : entries.find? (fun e => e.1 == k) with
  | none => rw [hf] at h; simp [isFunc] at h
  | some e =>
    have hp := List.find?_some hf
    exact List.any_eq_true.mpr ⟨e, List.mem_of_find?_eq_some hf, hp⟩

/-- Claim C1: for every enum value and every structured (object) enum-value
spec, the merged internal representation is the spec's `value` exactly when
the `value` key is present (even when the supplied value is falsy such as
`0`), and is left exactly as it was when the key is absent. -/
theorem c1_enum_value_presence (ev : EnumValue) (entries : List (String × Val)) :
    (applyEnumValueSpec ev (Val.vobj entries)).value =
      if hasKey entries "value" then objGet entries "value" else ev.value := by
  unfold applyEnumValueSpec
  cases h1 : truthy (objGet entries "applyPlan") <;>
    cases h2 : hasKey entries "value" <;>
      simp [isFunc, h1, h2]

/-- Claim C2 (counterexample): on the concrete input-object schema, the merge
does raise the fatal error naming `I.b`, but the sibling field `a`, processed
earlier, has already been mutated — refuting "this failing merge does not
mutate any other field of the graph". -/
theorem c2_counterexample :
    (mergePlans c2CexSchema c2CexPlans).fatal = some (inputFnMsg "I" "b")
    ∧ (mergePlans c2CexSchema c2CexPlans).schema =
      [.inputObject { name := "I", fields :=
        [{ name := "a", grafast := some [("x", .vnum 1)] },
         { name := "b", grafast := none }] }] :=
  ⟨rfl, rfl⟩

/-- Claim C3 (counterexample): a configuration entry targeting a node of an
unrecognized kind does not make the merge raise a fatal error: the run
completes with `fatal = none`, the diagnostic goes to the error channel, and
the following entry is still processed (the enum value is updated). -/
theorem c3_counterexample :
    (mergePlans c3CexSchema c3CexPlans).fatal = none
    ∧ (mergePlans c3CexSchema c3CexPlans).errors = [unhandledTypeMsg "X"]
    ∧ (mergePlans c3CexSchema c3CexPlans).schema =
      [.unknown "X",
       .enum { name := "E", values := [{ name := "A", value := .vnum 7, grafast := none }] }] :=
  ⟨rfl, rfl, rfl⟩

/-- Claim C4 (counterexample): a `__`-prefixed key in an enum type's spec is
not a hard error — the merge completes and merely warns that the value was
not found — refuting "this holds for every one of the five kinds". -/
theorem c4_counterexample :
    (mergePlans c4CexSchema c4CexPlans).fatal = none
    ∧ (mergePlans c4CexSchema c4CexPlans).warnings = [enumWarnMsg "E" "__bogus"] :=
  ⟨rfl, rfl⟩

/-- Claim C5 (counterexample): an enum-style spec (value-name mapped to a
bare string) supplied for an object type is not detected as a kind/shape
mismatch: the merge completes without a fatal error and reports only a
field-not-found warning. -/
theorem c5_counterexample :
    (mergePlans c5CexSchema c5CexPlans).fatal = none
    ∧ (mergePlans c5CexSchema c5CexPlans).warnings = [fieldWarnMsg "Query" "FOO"] :=
  ⟨rfl, rfl⟩

/-- Claim C6: a configured type name absent from the schema makes the merge
emit exactly one warning for that name, skip the entry and continue with the
remaining entries, leaving the graph untouched by that entry. -/
theorem c6_missing_type (schema : List TypeNode) (typeName : String) (spec : Val)
    (rest : List (String × Val))
    (h : schema.find? (fun t => t.name == typeName) = none) :
    mergePlans schema ((typeName, spec) :: rest) =
      { mergePlans schema rest with
        warnings := typeWarnMsg typeName :: (mergePlans schema rest).warnings } := by
  have hp : processEntry schema typeName spec =
      { schema := schema, warnings := [typeWarnMsg typeName], errors := [], fatal := none } := by
    unfold processEntry; rw [h]
  simp [mergePlans, hp]

/-- Claim C6 (witness): instantiation at a concrete schema that lacks the
configured name. -/
theorem c6_missing_type_witness :
    mergePlans c4CexSchema [("Nope", Val.vobj [])] =
      { mergePlans c4CexSchema [] with
        warnings := typeWarnMsg "Nope" :: (mergePlans c4CexSchema []).warnings } :=
  c6_missing_type c4CexSchema "Nope" (Val.vobj []) [] rfl

/-- Claim C7: a bare-function field spec for a present object-type field
stores exactly `plan ↦ f` in a fresh `grafast` extension object and leaves
the field's `resolve`, `subscribe` and argument extensions untouched, with no
warning and no error. -/
theorem c7_bare_function_field (typeName fieldName : String) (field : Field) (k : Nat) :
    (applyFieldSpec typeName fieldName field (Val.vfn k)).val.grafast
        = some [("plan", Val.vfn k)]
    ∧ (applyFieldSpec typeName fieldName field (Val.vfn k)).val.resolve = field.resolve
    ∧ (applyFieldSpec typeName fieldName field (Val.vfn k)).val.subscribe = field.subscribe
    ∧ (applyFieldSpec typeName fieldName field (Val.vfn k)).val.args = field.args
    ∧ (applyFieldSpec typeName fieldName field (Val.vfn k)).warnings = []
    ∧ (applyFieldSpec typeName fieldName field (Val.vfn k)).fatal = none :=
  ⟨rfl, rfl, rfl, rfl, rfl, rfl⟩

/-- Setting an input field's extension slot does not change which field
names the type has. -/
theorem hasInputField_setExt (fields : List InputField) (n m : String) (e : Ext) :
    hasInputField (setInputFieldExt fields n e) m = hasInputField fields m := by
  induction fields with
  | nil => rfl
  | cons f rest ih =>
    unfold setInputFieldExt
    by_cases h : (f.name == n) = true
    · simp [h, hasInputField]
    · simp only [hasInputField] at ih ⊢
      simp [h, ih]

/-- Claim C2 (amended): once input-object processing reaches the first
bare-function entry that names a present field, it throws the fatal error
naming the type and field, and neither that entry nor any later entry
mutates the fields; entries processed earlier have already been applied. -/
theorem c2_input_bare_function (typeName : String) (fields : List InputField)
    (pre post : List (String × Val)) (fieldName : String) (k : Nat)
    (hf : hasInputField fields fieldName = true)
    (hpre : ∀ e ∈ pre, isFunc e.2 = true → hasInputField fields e.1 = false) :
    (processInputEntries typeName fields (pre ++ (fieldName, Val.vfn k) :: post)).fatal
        = some (inputFnMsg typeName fieldName)
    ∧ (processInputEntries typeName fields (pre ++ (fieldName, Val.vfn k) :: post)).val
        = (processInputEntries typeName fields pre).val := by
  induction pre generalizing fields with
  | nil =>
    simp only [List.nil_append]
    unfold processInputEntries
    simp [hf, isFunc]
  | cons e pre ih =>
    obtain ⟨en, ev⟩ := e
    simp only [List.cons_append]
    cases he : hasInputField fields en with
    | false =>
      unfold processInputEntries
      simp only [he, Bool.false_eq_true, if_false]
      exact ih fields hf (fun x hx => hpre x (List.mem_cons_of_mem _ hx))
    | true =>
      have hnf : isFunc ev = false := by
        cases hev : isFunc ev
        · rfl
        · have := hpre (en, ev) (List.mem_cons_self _ _) hev
          rw [he] at this
          exact absurd this (by simp)
      unfold processInputEntries
      simp only [he, if_true, hnf, Bool.false_eq_true, if_false]
      exact ih (setInputFieldExt fields en (assignFrom [] ev))
        (by rw [hasInputField_setExt]; exact hf)
        (fun x hx hfn => by
          rw [hasInputField_setExt]
          exact hpre x (List.mem_cons_of_mem _ hx) hfn)

/-- Claim C2 (witness): the amended theorem at a concrete input (the offending
bare-function entry comes second, after an already-applied object entry). -/
theorem c2_input_bare_function_witness :
    (processInputEntries "I" [{ name := "a", grafast := none }, { name := "b", grafast := none }]
        ([("a", Val.vobj [("x", Val.vnum 1)])] ++ ("b", Val.vfn 0) :: [])).fatal
      = some (inputFnMsg "I" "b")
    ∧ (processInputEntries "I" [{ name := "a", grafast := none }, { name := "b", grafast := none }]
        ([("a", Val.vobj [("x", Val.vnum 1)])] ++ ("b", Val.vfn 0) :: [])).val
      = (processInputEntries "I" [{ name := "a", grafast := none }, { name := "b", grafast := none }]
          [("a", Val.vobj [("x", Val.vnum 1)])]).val :=
  c2_input_bare_function "I"
    [{ name := "a", grafast := none }, { name := "b", grafast := none }]
    [("a", Val.vobj [("x", Val.vnum 1)])] [] "b" 0 rfl
    (by intro x hx hfn; simp at hx; subst hx; simp [isFunc] at hfn)

/-- A configuration entry whose target node has an unrecognized kind is
logged via `console.error` and skipped without mutation. -/
theorem processEntry_unknown (schema : List TypeNode) (typeName n : String) (spec : Val)
    (h : schema.find? (fun t => t.name == typeName) = some (TypeNode.unknown n)) :
    processEntry schema typeName spec =
      { schema := schema, warnings := [], errors := [unhandledTypeMsg n], fatal := none } := by
  unfold processEntry
  rw [h]

/-- Claim C3 (amended): for a configuration entry whose target node has an
unrecognized kind, the merge logs an internal message on the error channel
(distinct from the warning channel used for not-found diagnostics), raises
no fatal error, leaves the graph untouched by that entry, and continues with
the remaining entries. -/
theorem c3_unknown_kind (schema : List TypeNode) (typeName n : String) (spec : Val)
    (rest : List (String × Val))
    (h : schema.find? (fun t => t.name == typeName) = some (TypeNode.unknown n)) :
    mergePlans schema ((typeName, spec) :: rest) =
      { mergePlans schema rest with
        errors := unhandledTypeMsg n :: (mergePlans schema rest).errors } := by
  simp [mergePlans, processEntry_unknown schema typeName n spec h]

/-- Claim C3 (witness): the amended theorem at a concrete schema containing a
node of an unrecognized kind. -/
theorem c3_unknown_kind_witness :
    mergePlans c3CexSchema [("X", Val.vobj [])] =
      { mergePlans c3CexSchema [] with
        errors := unhandledTypeMsg "X" :: (mergePlans c3CexSchema []).errors } :=
  c3_unknown_kind c3CexSchema "X" "X" (Val.vobj []) [] rfl

/-- Replacing the node that the name lookup returns by itself leaves the
schema unchanged. -/
theorem updateType_self (schema : List TypeNode) (n : String) (t : TypeNode)
    (h : schema.find? (fun u => u.name == n) = some t) :
    updateType schema n t = schema := by
  induction schema with
  | nil => simp at h
  | cons x rest ih =>
    unfold updateType
    rw [List.find?_cons] at h
    cases hx : (x.name == n)
    · rw [hx] at h
      simp at h
      simp [hx, ih h]
    · rw [hx] at h
      simp at h
      simp [hx, h]

/-- A configuration entry targeting an interface/union node with an object
spec dispatches to the interface/union policy, emitting no diagnostics. -/
theorem processEntry_iface (schema : List TypeNode) (typeName : String) (t : IUType)
    (entries : List (String × Val))
    (h : schema.find? (fun u => u.name == typeName) = some (TypeNode.iface t)) :
    processEntry schema typeName (Val.vobj entries) =
      { schema := updateType schema typeName (.iface (applyIfaceSpec t entries))
        warnings := [], errors := [], fatal := none } := by
  unfold processEntry
  rw [h]

/-- A configuration entry targeting a scalar node with an object spec
dispatches to the scalar policy, emitting no diagnostics. -/
theorem processEntry_scalar (schema : List TypeNode) (typeName : String) (s : ScalarType)
    (entries : List (String × Val))
    (h : schema.find? (fun u => u.name == typeName) = some (TypeNode.scalar s)) :
    processEntry schema typeName (Val.vobj entries) =
      { schema := updateType schema typeName (.scalar (applyScalarSpec s entries))
        warnings := [], errors := [], fatal := none } := by
  unfold processEntry
  rw [h]

/-- A `__`-prefixed key is distinct from any key that does not start with
`__`. -/
theorem dunder_ne_key (key other : String) (hk : startsWithDunder key = true)
    (ho : startsWithDunder other = false) : (key == other) = false := by
  cases hb : key == other
  · rfl
  · have hkey : key = other := by simpa using hb
    rw [hkey, ho] at hk
    exact Bool.noConfusion hk

/-- Claim C4 (amended): a `__`-prefixed key other than `__assertStep` is a
hard error for object types only; input objects and enums treat such keys as
not-found names (warning, entry skipped), while interfaces/unions and
scalars ignore unrecognized keys silently (node exactly unchanged, no
warning, no error, no fatal). -/
theorem c4_dunder_keys (typeName key : String) (v : Val) (o : ObjectType)
    (rest : List (String × Val)) (fields : List InputField) (vals : List EnumValue)
    (hk : startsWithDunder key = true)
    (hne : (key == "__assertStep") = false)
    (hfi : hasInputField fields key = false)
    (hvi : hasEnumValue vals key = false) :
    (processObjectEntries typeName o ((key, v) :: rest)).fatal = some (dunderErrMsg key)
    ∧ processInputEntries typeName fields [(key, v)] =
        { val := fields, warnings := [inputWarnMsg typeName key], fatal := none }
    ∧ processEnumEntries typeName vals [(key, v)] = (vals, [enumWarnMsg typeName key])
    ∧ ((key == "__resolveType") = false →
        ∀ (schema : List TypeNode) (t : IUType),
          schema.find? (fun u => u.name == typeName) = some (.iface t) →
          processEntry schema typeName (Val.vobj [(key, v)]) =
            { schema := schema, warnings := [], errors := [], fatal := none })
    ∧ (∀ (schema : List TypeNode) (s : ScalarType),
        schema.find? (fun u => u.name == typeName) = some (.scalar s) →
        processEntry schema typeName (Val.vobj [(key, v)]) =
          { schema := schema, warnings := [], errors := [], fatal := none }) := by
  refine ⟨?_, ?_, ?_, ?_, ?_⟩
  · unfold processObjectEntries
    simp [hne, hk]
  · simp [processInputEntries, hfi]
  · simp [processEnumEntries, hvi]
  · intro hri schema t hfind
    have happ : applyIfaceSpec t [(key, v)] = t := by
      unfold applyIfaceSpec
      simp [objGet, List.find?_cons, List.find?_nil, hri, truthy]
    rw [processEntry_iface schema typeName t [(key, v)] hfind, happ,
      updateType_self schema typeName (.iface t) hfind]
  · intro schema s hfind
    have h1 := dunder_ne_key key "serialize" hk rfl
    have h2 := dunder_ne_key key "parseValue" hk rfl
    have h3 := dunder_ne_key key "parseLiteral" hk rfl
    have h4 := dunder_ne_key key "plan" hk rfl
    have happ : applyScalarSpec s [(key, v)] = s := by
      unfold applyScalarSpec
      simp [objGet, List.find?_cons, List.find?_nil, h1, h2, h3, h4, isFunc]
    rw [processEntry_scalar schema typeName s [(key, v)] hfind, happ,
      updateType_self schema typeName (.scalar s) hfind]

/-- Claim C4 (witness): the amended theorem at the concrete key `__bogus`,
including the interface/union and scalar silent-ignore clauses. -/
theorem c4_dunder_keys_witness :
    (processObjectEntries "T" { name := "T", fields := [], grafast := none }
        [("__bogus", Val.vnum 1)]).fatal = some (dunderErrMsg "__bogus")
    ∧ processInputEntries "T" [{ name := "a", grafast := none }] [("__bogus", Val.vnum 1)] =
        { val := [{ name := "a", grafast := none }]
          warnings := [inputWarnMsg "T" "__bogus"], fatal := none }
    ∧ processEnumEntries "T" [{ name := "A", value := Val.vstr "A", grafast := none }]
        [("__bogus", Val.vnum 1)] =
      ([{ name := "A", value := Val.vstr "A", grafast := none }], [enumWarnMsg "T" "__bogus"])
    ∧ processEntry [TypeNode.iface { name := "T", resolveType := none }] "T"
        (Val.vobj [("__bogus", Val.vnum 1)]) =
      { schema := [TypeNode.iface { name := "T", resolveType := none }]
        warnings := [], errors := [], fatal := none }
    ∧ processEntry
        [TypeNode.scalar
          { name := "T"
            serialize := none
            parseValue := none
            parseLiteral := none
            grafast := none }] "T"
        (Val.vobj [("__bogus", Val.vnum 1)]) =
      { schema := [TypeNode.scalar
          { name := "T"
            serialize := none
            parseValue := none
            parseLiteral := none
            grafast := none }]
        warnings := [], errors := [], fatal := none } := by
  have t := c4_dunder_keys "T" "__bogus" (Val.vnum 1)
    { name := "T", fields := [], grafast := none } []
    [{ name := "a", grafast := none }]
    [{ name := "A", value := Val.vstr "A", grafast := none }]
    rfl rfl rfl rfl
  exact ⟨t.1, t.2.1, t.2.2.1,
    t.2.2.2.1 rfl [TypeNode.iface { name := "T", resolveType := none }]
      { name := "T", resolveType := none } rfl,
    t.2.2.2.2
      [TypeNode.scalar
        { name := "T"
          serialize := none
          parseValue := none
          parseLiteral := none
          grafast := none }]
      { name := "T"
        serialize := none
        parseValue := none
        parseLiteral := none
        grafast := none } rfl⟩

/-- Claim C5 (amended): a spec that is not a (non-null) object raises a hard
error, with no warning, for every configuration entry targeting one of the
five recognized kinds. -/
theorem c5_non_object_spec (schema : List TypeNode) (typeName : String) (spec : Val)
    (t : TypeNode)
    (h : schema.find? (fun u => u.name == typeName) = some t)
    (hu : t.isUnknown = false)
    (hs : isObjVal spec = false) :
    (processEntry schema typeName spec).fatal.isSome = true
    ∧ (processEntry schema typeName spec).warnings = [] := by
  unfold processEntry
  rw [h]
  cases t <;> cases spec <;> simp_all [TypeNode.isUnknown, isObjVal]

/-- Claim C5 (witness): the amended theorem at a concrete enum type given a
bare-number spec. -/
theorem c5_non_object_spec_witness :
    (processEntry c4CexSchema "E" (Val.vnum 3)).fatal.isSome = true
    ∧ (processEntry c4CexSchema "E" (Val.vnum 3)).warnings = [] :=
  c5_non_object_spec c4CexSchema "E" (Val.vnum 3)
    (.enum { name := "E", values := [{ name := "A", value := .vstr "A", grafast := none }] })
    rfl rfl rfl

/-- Every entry the structured field-spec handler places in the fresh
`grafast` extension object is one of the two plan keys, present in the spec,
with the spec's value. -/
theorem extFns_sound (entries : List (String × Val)) :
    ∀ e ∈ ((if isFunc (objGet entries "plan") then [("plan", objGet entries "plan")] else [])
      ++ (if isFunc (objGet entries "subscribePlan")
          then [("subscribePlan", objGet entries "subscribePlan")] else [])),
      (e.1 = "plan" ∨ e.1 = "subscribePlan")
        ∧ hasKey entries e.1 = true ∧ e.2 = objGet entries e.1 := by
  intro e he
  rcases List.mem_append.mp he with h | h
  · by_cases hp : isFunc (objGet entries "plan") = true
    · rw [if_pos hp] at h
      have he2 : e = ("plan", objGet entries "plan") := by simpa using h
      subst he2
      exact ⟨Or.inl rfl, hasKey_of_func entries "plan" hp, rfl⟩
    · rw [if_neg hp] at h
      simp at h
  · by_cases hp : isFunc (objGet entries "subscribePlan") = true
    · rw [if_pos hp] at h
      have he2 : e = ("subscribePlan", objGet entries "subscribePlan") := by simpa using h
      subst he2
      exact ⟨Or.inr rfl, hasKey_of_func entries "subscribePlan" hp, rfl⟩
    · rw [if_neg hp] at h
      simp at h

/-- Claim C8: a structured object-type field spec whose `resolve` key is a
function installs that function as the field's native resolve hook, and the
fresh `grafast` extension object contains only the plan keys (`plan`,
`subscribePlan`) explicitly present in the spec, each with the spec's
value. -/
theorem c8_structured_resolve (typeName fieldName : String) (field : Field)
    (entries : List (String × Val)) (k : Nat)
    (hr : objGet entries "resolve" = Val.vfn k) :
    (applyFieldSpec typeName fieldName field (Val.vobj entries)).val.resolve
        = some (Val.vfn k)
    ∧ ∃ ext, (applyFieldSpec typeName fieldName field (Val.vobj entries)).val.grafast = some ext
        ∧ ∀ e ∈ ext, (e.1 = "plan" ∨ e.1 = "subscribePlan")
            ∧ hasKey entries e.1 = true ∧ e.2 = objGet entries e.1 := by
  unfold applyFieldSpec
  simp only [isFunc, getProp, hr, Bool.false_eq_true, if_false, if_true]
  cases ha : objGet entries "args" <;>
    exact ⟨by simp, _, rfl, extFns_sound entries⟩

/-- Claim C8 (witness): the theorem at a concrete field and spec. -/
theorem c8_structured_resolve_witness :
    (applyFieldSpec "Query" "hello"
      { name := "hello", args := [], resolve := none, subscribe := none, grafast := none }
      (Val.vobj [("resolve", Val.vfn 1), ("plan", Val.vfn 2)])).val.resolve
        = some (Val.vfn 1)
    ∧ ∃ ext, (applyFieldSpec "Query" "hello"
        { name := "hello", args := [], resolve := none, subscribe := none, grafast := none }
        (Val.vobj [("resolve", Val.vfn 1), ("plan", Val.vfn 2)])).val.grafast = some ext
      ∧ ∀ e ∈ ext, (e.1 = "plan" ∨ e.1 = "subscribePlan")
          ∧ hasKey [("resolve", Val.vfn 1), ("plan", Val.vfn 2)] e.1 = true
          ∧ e.2 = objGet [("resolve", Val.vfn 1), ("plan", Val.vfn 2)] e.1 :=
  c8_structured_resolve "Query" "hello"
    { name := "hello", args := [], resolve := none, subscribe := none, grafast := none }
    [("resolve", Val.vfn 1), ("plan", Val.vfn 2)] 1 rfl

/-- A property assignment for a key absent from the object appends the
pair. -/
theorem setKey_append (a : List (String × Val)) (k : String) (v : Val)
    (h : ∀ e ∈ a, (e.1 == k) = false) : setKey a k v = a ++ [(k, v)] := by
  induction a with
  | nil => rfl
  | cons x rest ih =>
    unfold setKey
    rw [h x (List.mem_cons_self x rest)]
    simp only [Bool.false_eq_true, if_false, List.cons_append, List.cons.injEq, true_and]
    exact ih (fun e he => h e (List.mem_cons_of_mem x he))

/-- Folding property assignments of pairwise-distinct keys, all absent from
the accumulator, appends the pairs in order. -/
theorem foldl_setKey_append (es : List (String × Val)) :
    ∀ a : List (String × Val), (es.map Prod.fst).Nodup →
      (∀ e ∈ es, ∀ x ∈ a, (x.1 == e.1) = false) →
      es.foldl (fun acc e => setKey acc e.1 e.2) a = a ++ es := by
  induction es with
  | nil => intro a _ _; simp
  | cons e rest ih =>
    intro a hnd hdis
    have hnd2 : e.1 ∉ rest.map Prod.fst ∧ (rest.map Prod.fst).Nodup := by
      rw [List.map_cons, List.nodup_cons] at hnd
      exact hnd
    simp only [List.foldl_cons]
    rw [setKey_append a e.1 e.2 (fun x hx => hdis e (List.mem_cons_self _ _) x hx)]
    rw [ih (a ++ [e]) hnd2.2 ?_]
    · simp
    intro e2 he2 x hx
    rcases List.mem_append.mp hx with hx2 | hx2
    · exact hdis e2 (List.mem_cons_of_mem _ he2) x hx2
    · have hxe : x = e := by simpa using hx2
      subst hxe
      have hne : x.1 ≠ e2.1 := by
        intro heq
        exact hnd2.1 (heq ▸ List.mem_map_of_mem Prod.fst he2)
      exact beq_eq_false_iff_ne.mpr hne

/-- `Object.assign` of an object with pairwise-distinct keys into a fresh
empty object copies its entries wholesale. -/
theorem assignFrom_entries (es : List (String × Val))
    (hnd : (es.map Prod.fst).Nodup) : assignFrom [] (Val.vobj es) = es := by
  have h := foldl_setKey_append es [] hnd (by intro e _ x hx; simp at hx)
  simpa [assignFrom] using h

/-- Claim C9: for an `args` mapping entry, a name not among the field's
declared arguments warns and is skipped; a declared name with a bare-function
spec throws the error naming plans.type.field.args.arg; any other declared
entry has its spec copied by `Object.assign` into a freshly allocated
extension slot, which for an object spec with distinct keys is a wholesale
copy. -/
theorem c9_arg_entry (typeName fieldName argName : String) (args : List Arg) (aSpec : Val) :
    (hasArg args argName = false →
      processArgEntries typeName fieldName args [(argName, aSpec)] =
        { val := args, warnings := [argWarnMsg typeName fieldName argName], fatal := none })
    ∧ (hasArg args argName = true → isFunc aSpec = true →
      processArgEntries typeName fieldName args [(argName, aSpec)] =
        { val := args, warnings := [], fatal := some (argFnMsg typeName fieldName argName) })
    ∧ (hasArg args argName = true → isFunc aSpec = false →
      processArgEntries typeName fieldName args [(argName, aSpec)] =
        { val := setArgExt args argName (assignFrom [] aSpec)
          warnings := [], fatal := none })
    ∧ (∀ es : List (String × Val), (es.map Prod.fst).Nodup →
      assignFrom [] (Val.vobj es) = es) := by
  refine ⟨?_, ?_, ?_, fun es hnd => assignFrom_entries es hnd⟩
  · intro h
    simp [processArgEntries, h]
  · intro h hfn
    simp [processArgEntries, h, hfn]
  · intro h hfn
    simp [processArgEntries, h, hfn]

/-- Claim C9 (witness): the theorem's three behaviors and the wholesale-copy
fact, each at a concrete input. -/
theorem c9_arg_entry_witness :
    processArgEntries "Q" "f" [{ name := "x", grafast := none }] [("y", Val.vnum 1)] =
      { val := [{ name := "x", grafast := none }]
        warnings := [argWarnMsg "Q" "f" "y"], fatal := none }
    ∧ processArgEntries "Q" "f" [{ name := "x", grafast := none }] [("x", Val.vfn 3)] =
      { val := [{ name := "x", grafast := none }]
        warnings := [], fatal := some (argFnMsg "Q" "f" "x") }
    ∧ processArgEntries "Q" "f" [{ name := "x", grafast := none }]
        [("x", Val.vobj [("autoApply", Val.vbool true)])] =
      { val := setArgExt [{ name := "x", grafast := none }] "x"
          (assignFrom [] (Val.vobj [("autoApply", Val.vbool true)]))
        warnings := [], fatal := none }
    ∧ assignFrom [] (Val.vobj [("autoApply", Val.vbool true)]) =
        [("autoApply", Val.vbool true)] :=
  ⟨(c9_arg_entry "Q" "f" "y" [{ name := "x", grafast := none }] (Val.vnum 1)).1 rfl,
   (c9_arg_entry "Q" "f" "x" [{ name := "x", grafast := none }] (Val.vfn 3)).2.1 rfl rfl,
   (c9_arg_entry "Q" "f" "x" [{ name := "x", grafast := none }]
      (Val.vobj [("autoApply", Val.vbool true)])).2.2.1 rfl rfl,
   (c9_arg_entry "Q" "f" "x" [{ name := "x", grafast := none }] (Val.vnum 0)).2.2.2
      [("autoApply", Val.vbool true)] (by simp)⟩

/-- Claim C10: recognized scalar keys (`serialize`, `parseValue`,
`parseLiteral`, `plan`) whose values are not functions are silently ignored
(no error, hook and extension slot unchanged); likewise non-function
`resolve`, `subscribe`, `plan` and `subscribePlan` values in a structured
object-type field spec leave the native hooks unchanged and put no
corresponding key in the extension object, and a non-object `args` raises no
error. -/
theorem c10_non_function_values_ignored (schema : List TypeNode)
    (typeName fieldName : String) (s : ScalarType) (se : List (String × Val))
    (field : Field) (fe : List (String × Val)) :
    (isFunc (objGet se "serialize") = false →
      (applyScalarSpec s se).serialize = s.serialize)
    ∧ (isFunc (objGet se "parseValue") = false →
      (applyScalarSpec s se).parseValue = s.parseValue)
    ∧ (isFunc (objGet se "parseLiteral") = false →
      (applyScalarSpec s se).parseLiteral = s.parseLiteral)
    ∧ (isFunc (objGet se "plan") = false →
      (applyScalarSpec s se).grafast = s.grafast)
    ∧ (schema.find? (fun t => t.name == typeName) = some (TypeNode.scalar s) →
      (processEntry schema typeName (Val.vobj se)).fatal = none)
    ∧ (isFunc (objGet fe "resolve") = false →
      (applyFieldSpec typeName fieldName field (Val.vobj fe)).val.resolve = field.resolve)
    ∧ (isFunc (objGet fe "subscribe") = false →
      (applyFieldSpec typeName fieldName field (Val.vobj fe)).val.subscribe = field.subscribe)
    ∧ (isFunc (objGet fe "plan") = false →
      hasKey (((applyFieldSpec typeName fieldName field (Val.vobj fe)).val.grafast).getD [])
        "plan" = false)
    ∧ (isFunc (objGet fe "subscribePlan") = false →
      hasKey (((applyFieldSpec typeName fieldName field (Val.vobj fe)).val.grafast).getD [])
        "subscribePlan" = false)
    ∧ (isObjVal (objGet fe "args") = false →
      (applyFieldSpec typeName fieldName field (Val.vobj fe)).fatal = none) := by
  refine ⟨?_, ?_, ?_, ?_, ?_, ?_, ?_, ?_, ?_, ?_⟩
  · intro h
    unfold applyScalarSpec
    split_ifs <;> simp_all
  · intro h
    unfold applyScalarSpec
    split_ifs <;> simp_all
  · intro h
    unfold applyScalarSpec
    split_ifs <;> simp_all
  · intro h
    unfold applyScalarSpec
    split_ifs <;> simp_all
  · intro h
    unfold processEntry
    rw [h]
  · intro h
    unfold applyFieldSpec
    simp only [isFunc] at h ⊢
    simp only [getProp, Bool.false_eq_true, if_false]
    cases ha : objGet fe "args" <;> simp [ha, h]
  · intro h
    unfold applyFieldSpec
    simp only [isFunc] at h ⊢
    simp only [getProp, Bool.false_eq_true, if_false]
    cases ha : objGet fe "args" <;> simp [ha, h]
  · intro h
    cases hsp : isFunc (objGet fe "subscribePlan") <;>
      (unfold applyFieldSpec
       simp only [isFunc] at h hsp ⊢
       simp only [getProp, Bool.false_eq_true, if_false]
       cases ha : objGet fe "args" <;>
         simp [ha, h, hsp, hasKey, List.any_append])
  · intro h
    cases hp : isFunc (objGet fe "plan") <;>
      (unfold applyFieldSpec
       simp only [isFunc] at h hp ⊢
       simp only [getProp, Bool.false_eq_true, if_false]
       cases ha : objGet fe "args" <;>
         simp [ha, h, hp, hasKey, List.any_append])
  · intro h
    unfold applyFieldSpec
    simp only [getProp, isFunc, Bool.false_eq_true, if_false]
    cases ha : objGet fe "args" with
    | vobj aes => rw [ha] at h; simp [isObjVal] at h
    | vfn a => simp [ha]
    | vstr a => simp [ha]
    | vnum a => simp [ha]
    | vbool a => simp [ha]
    | vnull => simp [ha]
    | vundefined => simp [ha]

/-- Claim C10 (witness): all ten behaviors at concrete non-function
values. -/
theorem c10_non_function_values_ignored_witness :
    (applyScalarSpec c10Scalar c10ScalarSpec).serialize = c10Scalar.serialize
    ∧ (applyScalarSpec c10Scalar c10ScalarSpec).parseValue = c10Scalar.parseValue
    ∧ (applyScalarSpec c10Scalar c10ScalarSpec).parseLiteral = c10Scalar.parseLiteral
    ∧ (applyScalarSpec c10Scalar c10ScalarSpec).grafast = c10Scalar.grafast
    ∧ (processEntry c10Schema "S" (Val.vobj c10ScalarSpec)).fatal = none
    ∧ (applyFieldSpec "S" "h" c10Field (Val.vobj c10FieldSpec)).val.resolve = c10Field.resolve
    ∧ (applyFieldSpec "S" "h" c10Field (Val.vobj c10FieldSpec)).val.subscribe = c10Field.subscribe
    ∧ hasKey (((applyFieldSpec "S" "h" c10Field (Val.vobj c10FieldSpec)).val.grafast).getD [])
        "plan" = false
    ∧ hasKey (((applyFieldSpec "S" "h" c10Field (Val.vobj c10FieldSpec)).val.grafast).getD [])
        "subscribePlan" = false
    ∧ (applyFieldSpec "S" "h" c10Field (Val.vobj c10FieldSpec)).fatal = none := by
  have t := c10_non_function_values_ignored c10Schema "S" "h" c10Scalar c10ScalarSpec
    c10Field c10FieldSpec
  exact ⟨t.1 rfl, t.2.1 rfl, t.2.2.1 rfl, t.2.2.2.1 rfl, t.2.2.2.2.1 rfl,
    t.2.2.2.2.2.1 rfl, t.2.2.2.2.2.2.1 rfl, t.2.2.2.2.2.2.2.1 rfl,
    t.2.2.2.2.2.2.2.2.1 rfl, t.2.2.2.2.2.2.2.2.2 rfl⟩

end Grafast
